import Mathlib

/-!
Verification of the team-pipeline phase state machine:
`initTeamPipelineState` / `markTeamPhase` (hooks/team-pipeline/state.ts) and
`transitionTeamPhase` / `requestTeamCancel` (the transition module).
Wall-clock reads (`new Date().toISOString()`) are modelled by an explicit
`now : String` argument supplied per call.
-/

/-- Phase enumeration: the eight phases of the team pipeline. -/
inductive TeamPipelinePhase where
  | teamPlan
  | teamPrd
  | teamExec
  | teamVerify
  | teamFix
  | complete
  | failed
  | cancelled
deriving DecidableEq, Fintype

/-- String value of each phase, as used by the TS string-literal union. -/
def phaseToString : TeamPipelinePhase → String
  | .teamPlan => "team-plan"
  | .teamPrd => "team-prd"
  | .teamExec => "team-exec"
  | .teamVerify => "team-verify"
  | .teamFix => "team-fix"
  | .complete => "complete"
  | .failed => "failed"
  | .cancelled => "cancelled"

/-- History entry: `{phase, entered_at, reason?}`. An absent `reason` field is `none`. -/
structure TeamPhaseHistoryEntry where
  phase : TeamPipelinePhase
  entered_at : String
  reason : Option String
deriving DecidableEq

/-- Artifact pointers: `{plan_path, prd_path, verify_report_path}`, nullable strings. -/
structure TeamArtifacts where
  plan_path : Option String
  prd_path : Option String
  verify_report_path : Option String
deriving DecidableEq

/-- Execution progress counters. -/
structure TeamExecution where
  workers_total : Nat
  workers_active : Nat
  tasks_total : Nat
  tasks_completed : Nat
  tasks_failed : Nat
deriving DecidableEq

/-- Bounded fix-retry counter `{attempt, max_attempts, last_failure_reason}`. -/
structure TeamFixLoop where
  attempt : Nat
  max_attempts : Nat
  last_failure_reason : Option String
deriving DecidableEq

/-- Cancellation record `{requested, requested_at, preserve_for_resume}`. -/
structure TeamCancel where
  requested : Bool
  requested_at : Option String
  preserve_for_resume : Bool
deriving DecidableEq

/-- Modelled from the spec: `schemaVersion` is an integer constant
(`TEAM_PIPELINE_SCHEMA_VERSION` lives in types.ts, which is not part of the
provided sources); its concrete value is irrelevant to every claim. -/
def TEAM_PIPELINE_SCHEMA_VERSION : Nat := 1

/-- Persisted state document, field-for-field after `TeamPipelineState` in types.ts
as consumed by state.ts. -/
structure TeamPipelineState where
  schema_version : Nat
  mode : String
  active : Bool
  session_id : String
  project_path : String
  phase : TeamPipelinePhase
  phase_history : List TeamPhaseHistoryEntry
  iteration : Nat
  max_iterations : Nat
  artifacts : TeamArtifacts
  execution : TeamExecution
  fix_loop : TeamFixLoop
  cancel : TeamCancel
  started_at : String
  updated_at : String
  completed_at : Option String
deriving DecidableEq

/-- Result shape `{ok, state, reason?}` of the transition engine and phase marker. -/
structure TeamTransitionResult where
  ok : Bool
  state : TeamPipelineState
  reason : Option String
deriving DecidableEq

/-- Translation of `initTeamPipelineState(directory, sessionId, options?)`; the two
optional `options` members and the timestamp are explicit arguments. -/
def initTeamPipelineState (directory sessionId : String)
    (optProjectPath : Option String) (optMaxIterations : Option Nat)
    (ts : String) : TeamPipelineState :=
  { schema_version := TEAM_PIPELINE_SCHEMA_VERSION
    mode := "team"
    active := true
    session_id := sessionId
    project_path := optProjectPath.getD directory
    phase := .teamPlan
    phase_history := [{ phase := .teamPlan, entered_at := ts, reason := none }]
    iteration := 1
    max_iterations := optMaxIterations.getD 25
    artifacts := { plan_path := none, prd_path := none, verify_report_path := none }
    execution := { workers_total := 0, workers_active := 0, tasks_total := 0,
                   tasks_completed := 0, tasks_failed := 0 }
    fix_loop := { attempt := 0, max_attempts := 3, last_failure_reason := none }
    cancel := { requested := false, requested_at := none, preserve_for_resume := false }
    started_at := ts
    updated_at := ts
    completed_at := none }

/-- JS-truthiness of the optional `reason` argument: the spread
`...(reason ? { reason } : {})` drops the field when `reason` is absent or `""`. -/
def mkHistoryReason : Option String → Option String
  | some s => if s = "" then none else some s
  | none => none

/-- Translation of `markTeamPhase(state, nextPhase, reason?)` from state.ts. -/
def markTeamPhase (state : TeamPipelineState) (nextPhase : TeamPipelinePhase)
    (reason : Option String) (now : String) : TeamTransitionResult :=
  if state.phase = nextPhase ∧ nextPhase ≠ .teamFix then
    { ok := true, state := state, reason := none }
  else
    let u1 : TeamPipelineState :=
      { state with
        phase := nextPhase
        phase_history := state.phase_history ++
          [{ phase := nextPhase, entered_at := now, reason := mkHistoryReason reason }] }
    let u2 : TeamPipelineState :=
      if nextPhase = .complete ∨ nextPhase = .failed ∨ nextPhase = .cancelled then
        { u1 with active := false, completed_at := some now }
      else u1
    let u3 : TeamPipelineState :=
      if nextPhase = .teamFix then
        { u2 with fix_loop := { u2.fix_loop with attempt := u2.fix_loop.attempt + 1 } }
      else u2
    let u4 : TeamPipelineState := { u3 with updated_at := now }
    if u4.fix_loop.attempt > u4.fix_loop.max_attempts then
      { ok := false
        state :=
          { u4 with
            phase := .failed
            active := false
            completed_at := some now
            updated_at := now
            fix_loop := { u4.fix_loop with
              last_failure_reason :=
                some (u4.fix_loop.last_failure_reason.getD "fix-loop-max-attempts-exceeded") }
            phase_history := u4.phase_history ++
              [{ phase := .failed, entered_at := now,
                 reason := some "fix-loop-max-attempts-exceeded" }] }
        reason := some "Fix loop exceeded max_attempts" }
    else
      { ok := true, state := u4, reason := none }

/-- Static adjacency table `ALLOWED` of the transition module. -/
def ALLOWED : TeamPipelinePhase → List TeamPipelinePhase
  | .teamPlan => [.teamPrd]
  | .teamPrd => [.teamExec]
  | .teamExec => [.teamVerify]
  | .teamVerify => [.teamFix, .complete, .failed]
  | .teamFix => [.teamExec, .teamVerify, .complete, .failed]
  | .complete => []
  | .failed => []
  | .cancelled => [.teamPlan, .teamExec]

/-- Translation of `isAllowedTransition(from, to)`. -/
def isAllowedTransition (fromPhase toPhase : TeamPipelinePhase) : Bool :=
  (ALLOWED fromPhase).contains toPhase

/-- JS-truthiness of a nullable string: `null` and `""` are falsy. -/
def truthyStr : Option String → Bool
  | some s => s != ""
  | none => false

/-- Translation of `hasRequiredArtifactsForPhase(state, next)`; the `team-exec`
branch is `Boolean(state.artifacts.plan_path || state.artifacts.prd_path)`. -/
def hasRequiredArtifactsForPhase (state : TeamPipelineState)
    (next : TeamPipelinePhase) : Bool :=
  if next = .teamExec then
    truthyStr state.artifacts.plan_path || truthyStr state.artifacts.prd_path
  else if next = .teamVerify then
    decide (state.execution.tasks_total > 0) &&
      decide (state.execution.tasks_completed ≥ state.execution.tasks_total)
  else
    true

/-- Translation of `transitionTeamPhase(state, next, reason?)`; the nullish
coalescing of the reason argument with the default resume reason is `Option.getD`. -/
def transitionTeamPhase (state : TeamPipelineState) (next : TeamPipelinePhase)
    (reason : Option String) (now : String) : TeamTransitionResult :=
  if isAllowedTransition state.phase next = false then
    { ok := false
      state := state
      reason := some ("Illegal transition: " ++ phaseToString state.phase ++ " -> " ++
        phaseToString next) }
  else if state.phase = .cancelled then
    if state.cancel.preserve_for_resume = false then
      { ok := false
        state := state
        reason := some "Cannot resume from cancelled: preserve_for_resume is not set" }
    else
      let resumed : TeamPipelineState := { state with active := true, completed_at := none }
      markTeamPhase resumed next (some (reason.getD "resumed-from-cancelled")) now
  else if hasRequiredArtifactsForPhase state next = false then
    { ok := false
      state := state
      reason := some ("Guard failed for transition: " ++ phaseToString state.phase ++ " -> " ++
        phaseToString next) }
  else
    markTeamPhase state next reason now

/-- Translation of `requestTeamCancel(state, preserveForResume = true)`; the TS
default argument value `true` is supplied explicitly by callers of the model. -/
def requestTeamCancel (state : TeamPipelineState) (preserveForResume : Bool)
    (now : String) : TeamPipelineState :=
  { state with
    cancel := { state.cancel with
      requested := true
      requested_at := some now
      preserve_for_resume := preserveForResume }
    phase := .cancelled
    active := false
    completed_at := some now
    updated_at := now
    phase_history := state.phase_history ++
      [{ phase := .cancelled, entered_at := now, reason := some "cancel-requested" }] }

/-- One call against the state document: an engine transition, a direct phase
mark, or a cancel request. -/
inductive TeamOp where
  | transition (next : TeamPipelinePhase) (reason : Option String) (now : String)
  | mark (next : TeamPipelinePhase) (reason : Option String) (now : String)
  | cancel (preserveForResume : Bool) (now : String)

/-- Result state of applying one call (callers persist `result.state` regardless of `ok`). -/
def applyTeamOp (s : TeamPipelineState) : TeamOp → TeamPipelineState
  | .transition next r now => (transitionTeamPhase s next r now).state
  | .mark next r now => (markTeamPhase s next r now).state
  | .cancel p now => requestTeamCancel s p now

/-- Folds a sequence of calls over a starting state. -/
def runTeamOps (s : TeamPipelineState) : List TeamOp → TeamPipelineState
  | [] => s
  | op :: rest => runTeamOps (applyTeamOp s op) rest

/-- States reachable from initialization through the engine and the cancel path. -/
inductive TeamReachable : TeamPipelineState → Prop where
  | init (directory sessionId : String) (pp : Option String) (mi : Option Nat) (ts : String) :
      TeamReachable (initTeamPipelineState directory sessionId pp mi ts)
  | transition (s : TeamPipelineState) (next : TeamPipelinePhase) (r : Option String)
      (now : String) : TeamReachable s → TeamReachable (transitionTeamPhase s next r now).state
  | cancel (s : TeamPipelineState) (p : Bool) (now : String) :
      TeamReachable s → TeamReachable (requestTeamCancel s p now)

/-- Lifecycle invariant of the state document: inactivity coincides with a
terminal-or-cancelled phase and with a recorded completion timestamp. -/
def teamInv (s : TeamPipelineState) : Prop :=
  (s.active = false ↔ (s.phase = .complete ∨ s.phase = .failed ∨ s.phase = .cancelled)) ∧
  (s.completed_at ≠ none ↔ s.active = false)

/-- Fresh document used as a concrete sample in witnesses. -/
def sInitSample : TeamPipelineState :=
  initTeamPipelineState "dir" "sess" none none "t0"

example : sInitSample.phase = .teamPlan := by decide
example : (markTeamPhase sInitSample .teamPrd none "t1").ok = true := by decide
example : (transitionTeamPhase sInitSample .teamExec none "t1").ok = false := by decide

/-- Attempt counter of the state the mutating branch would see: incremented
exactly when the target is `team-fix`. -/
def postAttempt (s : TeamPipelineState) (next : TeamPipelinePhase) : Nat :=
  if next = .teamFix then s.fix_loop.attempt + 1 else s.fix_loop.attempt

lemma markTeamPhase_noop (s : TeamPipelineState) (r : Option String) (now : String)
    (h1 : s.phase = next) (h2 : next ≠ .teamFix) :
    markTeamPhase s next r now = { ok := true, state := s, reason := none } := by
  unfold markTeamPhase
  rw [if_pos ⟨h1, h2⟩]

lemma markTeamPhase_mut_eq (s : TeamPipelineState) (next : TeamPipelinePhase)
    (r : Option String) (now : String) (h : ¬(s.phase = next ∧ next ≠ .teamFix)) :
    markTeamPhase s next r now =
      if postAttempt s next > s.fix_loop.max_attempts then
        { ok := false
          state :=
            { s with
              phase := .failed
              active := false
              completed_at := some now
              updated_at := now
              fix_loop :=
                { attempt := postAttempt s next
                  max_attempts := s.fix_loop.max_attempts
                  last_failure_reason :=
                    some (s.fix_loop.last_failure_reason.getD "fix-loop-max-attempts-exceeded") }
              phase_history := s.phase_history ++
                [{ phase := next, entered_at := now, reason := mkHistoryReason r },
                 { phase := .failed, entered_at := now,
                   reason := some "fix-loop-max-attempts-exceeded" }] }
          reason := some "Fix loop exceeded max_attempts" }
      else
        { ok := true
          state :=
            { s with
              phase := next
              active :=
                if next = .complete ∨ next = .failed ∨ next = .cancelled then false
                else s.active
              completed_at :=
                if next = .complete ∨ next = .failed ∨ next = .cancelled then some now
                else s.completed_at
              fix_loop :=
                { attempt := postAttempt s next
                  max_attempts := s.fix_loop.max_attempts
                  last_failure_reason := s.fix_loop.last_failure_reason }
              updated_at := now
              phase_history := s.phase_history ++
                [{ phase := next, entered_at := now, reason := mkHistoryReason r }] }
          reason := none } := by
  unfold markTeamPhase
  rw [if_neg h]
  by_cases hfix : next = .teamFix <;>
    by_cases hterm : (next = .complete ∨ next = .failed ∨ next = .cancelled) <;>
      simp [hfix, hterm, postAttempt]

lemma isAllowed_self_false (p : TeamPipelinePhase) : isAllowedTransition p p = false := by
  cases p <;> rfl

lemma allowed_complete (t : TeamPipelinePhase) : isAllowedTransition .complete t = false := by
  cases t <;> rfl

lemma allowed_failed (t : TeamPipelinePhase) : isAllowedTransition .failed t = false := by
  cases t <;> rfl

/-- State reached after three consecutive `team-fix` marks from a fresh document:
`fix_loop.attempt = 3` with the default ceiling `max_attempts = 3`. -/
def sFix3 : TeamPipelineState :=
  (markTeamPhase
    (markTeamPhase
      (markTeamPhase sInitSample .teamFix none "t1").state .teamFix none "t2").state
    .teamFix none "t3").state

/-- Stale document whose retry counter already exceeds its ceiling. -/
def sStale : TeamPipelineState :=
  { sInitSample with
    phase := .teamVerify
    fix_loop := { attempt := 4, max_attempts := 3, last_failure_reason := none } }

/-- Verification-phase document whose retry budget is exactly used up, so the
next `team-fix` entry overshoots the ceiling. -/
def sVerify3 : TeamPipelineState :=
  { sInitSample with
    phase := .teamVerify
    fix_loop := { attempt := 3, max_attempts := 3, last_failure_reason := none } }

example : sFix3.fix_loop.attempt = 3 ∧ sFix3.fix_loop.max_attempts = 3 ∧
    sFix3.phase = .teamFix ∧ sFix3.phase_history.length = 4 := by decide

/-- C1: a mutating `markTeamPhase` call whose post-update retry counter exceeds
the ceiling returns `ok:false` with reason `Fix loop exceeded max_attempts`, a
terminal failed state (`phase=failed`, `active=false`, `completed_at` set),
`last_failure_reason` kept when previously non-null and otherwise defaulted, and
the history entry of the requested phase followed by the synthesized failed entry. -/
theorem markTeamPhase_bounded_retry (s : TeamPipelineState) (next : TeamPipelinePhase)
    (r : Option String) (now : String)
    (hmut : ¬(s.phase = next ∧ next ≠ .teamFix))
    (hbound : postAttempt s next > s.fix_loop.max_attempts) :
    (markTeamPhase s next r now).ok = false ∧
    (markTeamPhase s next r now).reason = some "Fix loop exceeded max_attempts" ∧
    (markTeamPhase s next r now).state.phase = .failed ∧
    (markTeamPhase s next r now).state.active = false ∧
    (markTeamPhase s next r now).state.completed_at = some now ∧
    (markTeamPhase s next r now).state.fix_loop.last_failure_reason =
      some (s.fix_loop.last_failure_reason.getD "fix-loop-max-attempts-exceeded") ∧
    (markTeamPhase s next r now).state.phase_history =
      s.phase_history ++
        [{ phase := next, entered_at := now, reason := mkHistoryReason r },
         { phase := .failed, entered_at := now,
           reason := some "fix-loop-max-attempts-exceeded" }] := by
  rw [markTeamPhase_mut_eq s next r now hmut, if_pos hbound]
  exact ⟨rfl, rfl, rfl, rfl, rfl, rfl, rfl⟩

/-- C1 witness: with `max_attempts = 3`, the fourth `team-fix` mark in a row is
rejected and appends two history entries. -/
theorem markTeamPhase_bounded_retry_w :
    (markTeamPhase sFix3 .teamFix none "t4").ok = false ∧
    (markTeamPhase sFix3 .teamFix none "t4").reason = some "Fix loop exceeded max_attempts" ∧
    (markTeamPhase sFix3 .teamFix none "t4").state.phase_history =
      sFix3.phase_history ++
        [{ phase := .teamFix, entered_at := "t4", reason := none },
         { phase := .failed, entered_at := "t4",
           reason := some "fix-loop-max-attempts-exceeded" }] := by
  have h := markTeamPhase_bounded_retry sFix3 .teamFix none "t4" (by decide) (by decide)
  exact ⟨h.1, h.2.1, h.2.2.2.2.2.2⟩

/-- C10: the retry bound is re-checked on every mutating `markTeamPhase` call,
whatever the target phase: a state whose counter already exceeds the ceiling is
forced to the synthesized failed outcome instead of the requested phase. -/
theorem markTeamPhase_stale_bound_check (s : TeamPipelineState) (next : TeamPipelinePhase)
    (r : Option String) (now : String)
    (hstale : s.fix_loop.attempt > s.fix_loop.max_attempts)
    (hmut : ¬(s.phase = next ∧ next ≠ .teamFix)) :
    (markTeamPhase s next r now).ok = false ∧
    (markTeamPhase s next r now).reason = some "Fix loop exceeded max_attempts" ∧
    (markTeamPhase s next r now).state.phase = .failed ∧
    (markTeamPhase s next r now).state.active = false := by
  have hbound : postAttempt s next > s.fix_loop.max_attempts := by
    unfold postAttempt
    split <;> omega
  rw [markTeamPhase_mut_eq s next r now hmut, if_pos hbound]
  exact ⟨rfl, rfl, rfl, rfl⟩

/-- C10 witness: a stale state (attempt 4 of max 3) asked to enter `complete`
is redirected to `failed` with `ok:false`. -/
theorem markTeamPhase_stale_bound_check_w :
    (markTeamPhase sStale .complete none "t9").ok = false ∧
    (markTeamPhase sStale .complete none "t9").state.phase = .failed := by
  have h := markTeamPhase_stale_bound_check sStale .complete none "t9" (by decide) (by decide)
  exact ⟨h.1, h.2.2.1⟩

/-- C8: re-requesting the current phase through `markTeamPhase` is an exact
no-op (`ok:true`, state returned untouched) except for `team-fix`, whose
re-entry always increments the retry counter by exactly one and appends a
`team-fix` history entry. -/
theorem markTeamPhase_idempotent_and_teamfix (s : TeamPipelineState)
    (r : Option String) (now : String) :
    (s.phase ≠ .teamFix → markTeamPhase s s.phase r now = { ok := true, state := s, reason := none }) ∧
    (markTeamPhase s .teamFix r now).state.fix_loop.attempt = s.fix_loop.attempt + 1 ∧
    (s.phase = .teamFix →
      ∃ e t, (markTeamPhase s .teamFix r now).state.phase_history = s.phase_history ++ e :: t ∧
        e.phase = .teamFix) := by
  have hmut : ¬(s.phase = .teamFix ∧ .teamFix ≠ (.teamFix : TeamPipelinePhase)) := by
    simp
  refine ⟨fun h => markTeamPhase_noop s r now rfl h, ?_, ?_⟩
  · rw [markTeamPhase_mut_eq s .teamFix r now hmut]
    split <;> simp [postAttempt]
  · intro _
    rw [markTeamPhase_mut_eq s .teamFix r now hmut]
    split
    · exact ⟨{ phase := .teamFix, entered_at := now, reason := mkHistoryReason r },
        [{ phase := .failed, entered_at := now, reason := some "fix-loop-max-attempts-exceeded" }],
        rfl, rfl⟩
    · exact ⟨{ phase := .teamFix, entered_at := now, reason := mkHistoryReason r }, [], rfl, rfl⟩

/-- C8 witness: the fresh document no-ops on re-requesting `team-plan`, and a
`team-fix` state increments its counter on `team-fix` re-entry. -/
theorem markTeamPhase_idempotent_and_teamfix_w :
    markTeamPhase sInitSample sInitSample.phase none "t1" =
      { ok := true, state := sInitSample, reason := none } ∧
    (markTeamPhase sFix3 .teamFix none "t4").state.fix_loop.attempt =
      sFix3.fix_loop.attempt + 1 := by
  have h1 := markTeamPhase_idempotent_and_teamfix sInitSample none "t1"
  have h2 := markTeamPhase_idempotent_and_teamfix sFix3 none "t4"
  exact ⟨h1.1 (by decide), h2.2.1⟩

/-- C2: the engine accepts a request only when the target is in the adjacency
row of the current phase; the table rows are exactly those of the claim; any
violation returns `ok:false`, the untouched input state, and the
`Illegal transition` reason — in particular every request from `complete` or
`failed` fails that way. -/
theorem transitionTeamPhase_legality (s : TeamPipelineState) (next : TeamPipelinePhase)
    (r : Option String) (now : String) :
    ((transitionTeamPhase s next r now).ok = true → isAllowedTransition s.phase next = true) ∧
    (isAllowedTransition s.phase next = false →
      transitionTeamPhase s next r now =
        { ok := false, state := s,
          reason := some ("Illegal transition: " ++ phaseToString s.phase ++ " -> " ++
            phaseToString next) }) ∧
    (∀ p t, isAllowedTransition p t = true ↔
      ((p = .teamPlan ∧ t = .teamPrd) ∨ (p = .teamPrd ∧ t = .teamExec) ∨
       (p = .teamExec ∧ t = .teamVerify) ∨
       (p = .teamVerify ∧ (t = .teamFix ∨ t = .complete ∨ t = .failed)) ∨
       (p = .teamFix ∧ (t = .teamExec ∨ t = .teamVerify ∨ t = .complete ∨ t = .failed)) ∨
       (p = .cancelled ∧ (t = .teamPlan ∨ t = .teamExec)))) ∧
    ((s.phase = .complete ∨ s.phase = .failed) →
      transitionTeamPhase s next r now =
        { ok := false, state := s,
          reason := some ("Illegal transition: " ++ phaseToString s.phase ++ " -> " ++
            phaseToString next) }) := by
  have key : isAllowedTransition s.phase next = false →
      transitionTeamPhase s next r now =
        { ok := false, state := s,
          reason := some ("Illegal transition: " ++ phaseToString s.phase ++ " -> " ++
            phaseToString next) } := by
    intro h
    unfold transitionTeamPhase
    rw [if_pos h]
  refine ⟨?_, key, by decide, ?_⟩
  · intro hok
    cases hB : isAllowedTransition s.phase next
    · rw [key hB] at hok
      simp at hok
    · rfl
  · intro h
    apply key
    rcases h with h | h <;> rw [h]
    · exact allowed_complete next
    · exact allowed_failed next

/-- C2 witness: skipping from `team-plan` straight to `team-exec` is rejected
with the input state unchanged. -/
theorem transitionTeamPhase_legality_w :
    transitionTeamPhase sInitSample .teamExec none "t1" =
      { ok := false, state := sInitSample,
        reason := some "Illegal transition: team-plan -> team-exec" } := by
  have h := (transitionTeamPhase_legality sInitSample .teamExec none "t1").2.1 (by decide)
  exact h

/-- C9 counterexample: the claim asserts that re-requesting the current phase
through the engine returns `ok:true`; at the fresh document (phase `team-plan`,
not `team-fix`) the engine instead rejects the request. -/
theorem transitionTeamPhase_self_cx :
    sInitSample.phase ≠ .teamFix ∧
    (transitionTeamPhase sInitSample sInitSample.phase none "t1").ok = false := by decide

/-- C9 amended: re-requesting the current phase through the engine (current
phase not `team-fix`) always returns `ok:false` with reason
`Illegal transition: <p> -> <p>` and the input state unchanged, since no adjacency row
contains its own source phase; the `ok:true` idempotent no-op exists only at the
`markTeamPhase` level. -/
theorem transitionTeamPhase_self_amended (s : TeamPipelineState) (r : Option String)
    (now : String) (hnf : s.phase ≠ .teamFix) :
    transitionTeamPhase s s.phase r now =
      { ok := false, state := s,
        reason := some ("Illegal transition: " ++ phaseToString s.phase ++ " -> " ++
          phaseToString s.phase) } := by
  unfold transitionTeamPhase
  rw [if_pos (isAllowed_self_false s.phase)]

/-- C9 amended witness: re-requesting `team-plan` on the fresh document. -/
theorem transitionTeamPhase_self_amended_w :
    transitionTeamPhase sInitSample .teamPlan none "t1" =
      { ok := false, state := sInitSample,
        reason := some "Illegal transition: team-plan -> team-plan" } := by
  have h := transitionTeamPhase_self_amended sInitSample none "t1" (by decide)
  exact h

/-- C7: `requestTeamCancel` is an unconditional override — from any phase it
records the cancel request (flag, timestamp, resume eligibility), forces
`phase=cancelled`, `active=false`, sets `completed_at`/`updated_at`, appends
exactly one `cancelled` history entry with reason `cancel-requested`, and leaves
every other field unchanged. -/
theorem requestTeamCancel_unconditional (s : TeamPipelineState) (p : Bool) (now : String) :
    (requestTeamCancel s p now).cancel.requested = true ∧
    (requestTeamCancel s p now).cancel.requested_at = some now ∧
    (requestTeamCancel s p now).cancel.preserve_for_resume = p ∧
    (requestTeamCancel s p now).phase = .cancelled ∧
    (requestTeamCancel s p now).active = false ∧
    (requestTeamCancel s p now).completed_at = some now ∧
    (requestTeamCancel s p now).updated_at = now ∧
    (requestTeamCancel s p now).phase_history =
      s.phase_history ++
        [{ phase := .cancelled, entered_at := now, reason := some "cancel-requested" }] ∧
    (requestTeamCancel s p now).schema_version = s.schema_version ∧
    (requestTeamCancel s p now).mode = s.mode ∧
    (requestTeamCancel s p now).session_id = s.session_id ∧
    (requestTeamCancel s p now).project_path = s.project_path ∧
    (requestTeamCancel s p now).iteration = s.iteration ∧
    (requestTeamCancel s p now).max_iterations = s.max_iterations ∧
    (requestTeamCancel s p now).artifacts = s.artifacts ∧
    (requestTeamCancel s p now).execution = s.execution ∧
    (requestTeamCancel s p now).fix_loop = s.fix_loop ∧
    (requestTeamCancel s p now).started_at = s.started_at :=
  ⟨rfl, rfl, rfl, rfl, rfl, rfl, rfl, rfl, rfl, rfl, rfl, rfl, rfl, rfl, rfl, rfl, rfl, rfl⟩

lemma truthyStr_iff (o : Option String) : truthyStr o = true ↔ ∃ v, o = some v ∧ v ≠ "" := by
  cases o with
  | none => simp [truthyStr]
  | some s => simp [truthyStr, bne_iff_ne]

/-- Document in `team-prd` whose plan artifact is the empty string: non-null,
yet falsy under the JS truthiness test of the guard. -/
def sEmptyPath : TeamPipelineState :=
  { sInitSample with
    phase := .teamPrd
    artifacts := { plan_path := some "", prd_path := none, verify_report_path := none } }

/-- Document sitting in `team-exec` with all progress counters still zero. -/
def sExecNoTasks : TeamPipelineState :=
  { sInitSample with phase := .teamExec }

/-- Resumable cancelled document (no artifacts recorded). -/
def sCancelled : TeamPipelineState := requestTeamCancel sInitSample true "t1"

/-- Non-resumable cancelled document. -/
def sCancelledNoResume : TeamPipelineState := requestTeamCancel sInitSample false "t1"

/-- C3 counterexample: `plan_path` is non-null (the empty string), so by the
claim the `team-exec` readiness requirement is met, yet the engine rejects the
legal `team-prd -> team-exec` request with a guard failure: the code tests JS
truthiness, not nullness. -/
theorem transitionTeamPhase_guard_cx :
    sEmptyPath.artifacts.plan_path ≠ none ∧
    sEmptyPath.phase = .teamPrd ∧
    isAllowedTransition sEmptyPath.phase .teamExec = true ∧
    transitionTeamPhase sEmptyPath .teamExec none "t1" =
      { ok := false, state := sEmptyPath,
        reason := some "Guard failed for transition: team-prd -> team-exec" } := by decide

/-- C3 amended: entering `team-exec` requires at least one of
`artifacts.plan_path`/`artifacts.prd_path` to be non-null and non-empty (JS
truthy); entering `team-verify` requires `tasks_total > 0` and
`tasks_completed >= tasks_total`; all other targets have no guard; a guard
failure returns `ok:false` with the input state unchanged and the
`Guard failed` reason; and the guards are bypassed entirely when the source
phase is `cancelled`. -/
theorem transitionTeamPhase_guards_amended (s : TeamPipelineState)
    (next : TeamPipelinePhase) (r : Option String) (now : String) :
    (hasRequiredArtifactsForPhase s .teamExec = true ↔
      ((∃ v, s.artifacts.plan_path = some v ∧ v ≠ "") ∨
       (∃ v, s.artifacts.prd_path = some v ∧ v ≠ ""))) ∧
    (hasRequiredArtifactsForPhase s .teamVerify = true ↔
      (0 < s.execution.tasks_total ∧
        s.execution.tasks_total ≤ s.execution.tasks_completed)) ∧
    (next ≠ .teamExec → next ≠ .teamVerify → hasRequiredArtifactsForPhase s next = true) ∧
    (s.phase ≠ .cancelled → isAllowedTransition s.phase next = true →
      hasRequiredArtifactsForPhase s next = false →
      transitionTeamPhase s next r now =
        { ok := false, state := s,
          reason := some ("Guard failed for transition: " ++ phaseToString s.phase ++ " -> " ++
            phaseToString next) }) ∧
    (s.phase = .cancelled → s.cancel.preserve_for_resume = true →
      isAllowedTransition s.phase next = true →
      transitionTeamPhase s next r now =
        markTeamPhase { s with active := true, completed_at := none } next
          (some (r.getD "resumed-from-cancelled")) now) := by
  refine ⟨?_, ?_, ?_, ?_, ?_⟩
  · simp [hasRequiredArtifactsForPhase, Bool.or_eq_true, truthyStr_iff]
  · simp [hasRequiredArtifactsForPhase]
  · intro h1 h2
    simp [hasRequiredArtifactsForPhase, h1, h2]
  · intro hc hleg hg
    have hnotfalse : ¬ isAllowedTransition s.phase next = false := by
      rw [hleg]; simp
    unfold transitionTeamPhase
    rw [if_neg hnotfalse, if_neg hc, if_pos hg]
  · intro hc hp hleg
    have hnotfalse : ¬ isAllowedTransition s.phase next = false := by
      rw [hleg]; simp
    have hpnot : ¬ s.cancel.preserve_for_resume = false := by
      rw [hp]; simp
    unfold transitionTeamPhase
    rw [if_neg hnotfalse, if_pos hc, if_neg hpnot]

/-- C3 amended witness: `team-exec` with zero tasks guard-fails on
`team-verify`, while a cancelled document with no artifacts at all resumes
straight into `team-exec` because guards are bypassed there. -/
theorem transitionTeamPhase_guards_amended_w :
    (transitionTeamPhase sExecNoTasks .teamVerify none "t2" =
      { ok := false, state := sExecNoTasks,
        reason := some "Guard failed for transition: team-exec -> team-verify" }) ∧
    (transitionTeamPhase sCancelled .teamExec none "t2" =
      markTeamPhase { sCancelled with active := true, completed_at := none } .teamExec
        (some "resumed-from-cancelled") "t2") ∧
    (transitionTeamPhase sCancelled .teamExec none "t2").ok = true := by
  have h1 := (transitionTeamPhase_guards_amended sExecNoTasks .teamVerify none "t2").2.2.2.1
    (by decide) (by decide) (by decide)
  have h2 := (transitionTeamPhase_guards_amended sCancelled .teamExec none "t2").2.2.2.2
    (by decide) (by decide) (by decide)
  exact ⟨h1, h2, by rw [h2]; decide⟩

/-- C4: from a cancelled document with a legal resume target, resumption fails
with the dedicated reason exactly when `preserve_for_resume` is unset; when set,
the engine reactivates the state (`active=true`, `completed_at=null`) and then
delegates to the phase marker with default reason `resumed-from-cancelled`; on
success the resulting state is active, has no completion timestamp, carries the
new phase, and (absent a caller reason) records the default resume reason. -/
theorem transitionTeamPhase_cancelled_resume (s : TeamPipelineState)
    (next : TeamPipelinePhase) (r : Option String) (now : String)
    (hc : s.phase = .cancelled) (ht : next = .teamPlan ∨ next = .teamExec) :
    (s.cancel.preserve_for_resume = false →
      transitionTeamPhase s next r now =
        { ok := false, state := s,
          reason := some "Cannot resume from cancelled: preserve_for_resume is not set" }) ∧
    (s.cancel.preserve_for_resume = true →
      transitionTeamPhase s next r now =
        markTeamPhase { s with active := true, completed_at := none } next
          (some (r.getD "resumed-from-cancelled")) now) ∧
    ((transitionTeamPhase s next r now).ok = true →
      s.cancel.preserve_for_resume = true ∧
      (transitionTeamPhase s next r now).state.active = true ∧
      (transitionTeamPhase s next r now).state.completed_at = none ∧
      (transitionTeamPhase s next r now).state.phase = next ∧
      (r = none →
        (transitionTeamPhase s next r now).state.phase_history =
          s.phase_history ++
            [{ phase := next, entered_at := now, reason := some "resumed-from-cancelled" }])) := by
  have hlegtrue : isAllowedTransition s.phase next = true := by
    rw [hc]; rcases ht with h | h <;> rw [h] <;> rfl
  have hnotfalse : ¬ isAllowedTransition s.phase next = false := by
    rw [hlegtrue]; simp
  have hterm : ¬(next = .complete ∨ next = .failed ∨ next = .cancelled) := by
    rcases ht with h | h <;> rw [h] <;> simp
  refine ⟨?_, ?_, ?_⟩
  · intro hp
    unfold transitionTeamPhase
    rw [if_neg hnotfalse, if_pos hc, if_pos hp]
  · intro hp
    have hpnot : ¬ s.cancel.preserve_for_resume = false := by rw [hp]; simp
    unfold transitionTeamPhase
    rw [if_neg hnotfalse, if_pos hc, if_neg hpnot]
  · intro hok
    by_cases hp : s.cancel.preserve_for_resume = false
    · exfalso
      unfold transitionTeamPhase at hok
      rw [if_neg hnotfalse, if_pos hc, if_pos hp] at hok
      simp at hok
    · have hptrue : s.cancel.preserve_for_resume = true := by
        revert hp; cases s.cancel.preserve_for_resume <;> simp
      have heq : transitionTeamPhase s next r now =
          markTeamPhase { s with active := true, completed_at := none } next
            (some (r.getD "resumed-from-cancelled")) now := by
        unfold transitionTeamPhase
        rw [if_neg hnotfalse, if_pos hc, if_neg hp]
      have hmut : ¬(({ s with active := true, completed_at := none } :
          TeamPipelineState).phase = next ∧ next ≠ .teamFix) := by
        intro hcontra
        have hsp : s.phase = next := hcontra.1
        rw [hc] at hsp
        rcases ht with h | h <;> rw [h] at hsp <;> exact absurd hsp (by simp)
      rw [heq, markTeamPhase_mut_eq _ _ _ _ hmut] at hok ⊢
      by_cases hbound : postAttempt { s with active := true, completed_at := none } next >
          ({ s with active := true, completed_at := none } :
            TeamPipelineState).fix_loop.max_attempts
      · rw [if_pos hbound] at hok
        simp at hok
      · rw [if_neg hbound] at hok ⊢
        refine ⟨hptrue, by simp [hterm], by simp [hterm], rfl, ?_⟩
        intro hr
        subst hr
        rfl

/-- C4 witness: a non-resumable cancelled document is refused; a resumable one
comes back active with no completion timestamp and the default resume reason. -/
theorem transitionTeamPhase_cancelled_resume_w :
    (transitionTeamPhase sCancelledNoResume .teamPlan none "t2" =
      { ok := false, state := sCancelledNoResume,
        reason := some "Cannot resume from cancelled: preserve_for_resume is not set" }) ∧
    (transitionTeamPhase sCancelled .teamPlan none "t2").state.active = true ∧
    (transitionTeamPhase sCancelled .teamPlan none "t2").state.completed_at = none ∧
    (transitionTeamPhase sCancelled .teamPlan none "t2").state.phase_history =
      sCancelled.phase_history ++
        [{ phase := .teamPlan, entered_at := "t2", reason := some "resumed-from-cancelled" }] := by
  have h1 := transitionTeamPhase_cancelled_resume sCancelledNoResume .teamPlan none "t2"
    (by decide) (by decide)
  have h2 := transitionTeamPhase_cancelled_resume sCancelled .teamPlan none "t2"
    (by decide) (by decide)
  obtain ⟨_, ha, hcomp, _, hh⟩ := h2.2.2 (by decide)
  exact ⟨h1.1 (by decide), ha, hcomp, hh rfl⟩

lemma transitionTeamPhase_cases (s : TeamPipelineState) (next : TeamPipelinePhase)
    (r : Option String) (now : String) :
    (transitionTeamPhase s next r now =
      { ok := false, state := s,
        reason := some ("Illegal transition: " ++ phaseToString s.phase ++ " -> " ++
          phaseToString next) }) ∨
    (s.phase = .cancelled ∧ transitionTeamPhase s next r now =
      { ok := false, state := s,
        reason := some "Cannot resume from cancelled: preserve_for_resume is not set" }) ∨
    (s.phase = .cancelled ∧ s.phase ≠ next ∧ transitionTeamPhase s next r now =
      markTeamPhase { s with active := true, completed_at := none } next
        (some (r.getD "resumed-from-cancelled")) now) ∨
    (s.phase ≠ .cancelled ∧ transitionTeamPhase s next r now =
      { ok := false, state := s,
        reason := some ("Guard failed for transition: " ++ phaseToString s.phase ++ " -> " ++
          phaseToString next) }) ∨
    (s.phase ≠ .cancelled ∧ s.phase ≠ next ∧ isAllowedTransition s.phase next = true ∧
      transitionTeamPhase s next r now = markTeamPhase s next r now) := by
  by_cases hleg : isAllowedTransition s.phase next = false
  · left
    unfold transitionTeamPhase
    rw [if_pos hleg]
  · have hlegtrue : isAllowedTransition s.phase next = true := by
      revert hleg; cases isAllowedTransition s.phase next <;> simp
    have hne : s.phase ≠ next := by
      intro h
      rw [h, isAllowed_self_false next] at hlegtrue
      simp at hlegtrue
    by_cases hc : s.phase = .cancelled
    · by_cases hp : s.cancel.preserve_for_resume = false
      · have heq : transitionTeamPhase s next r now =
            { ok := false, state := s,
              reason := some "Cannot resume from cancelled: preserve_for_resume is not set" } := by
          unfold transitionTeamPhase
          rw [if_neg hleg, if_pos hc, if_pos hp]
        exact Or.inr (Or.inl ⟨hc, heq⟩)
      · have heq : transitionTeamPhase s next r now =
            markTeamPhase { s with active := true, completed_at := none } next
              (some (r.getD "resumed-from-cancelled")) now := by
          unfold transitionTeamPhase
          rw [if_neg hleg, if_pos hc, if_neg hp]
        exact Or.inr (Or.inr (Or.inl ⟨hc, hne, heq⟩))
    · by_cases hg : hasRequiredArtifactsForPhase s next = false
      · have heq : transitionTeamPhase s next r now =
            { ok := false, state := s,
              reason := some ("Guard failed for transition: " ++ phaseToString s.phase ++
                " -> " ++ phaseToString next) } := by
          unfold transitionTeamPhase
          rw [if_neg hleg, if_neg hc, if_pos hg]
        exact Or.inr (Or.inr (Or.inr (Or.inl ⟨hc, heq⟩)))
      · have heq : transitionTeamPhase s next r now = markTeamPhase s next r now := by
          unfold transitionTeamPhase
          rw [if_neg hleg, if_neg hc, if_neg hg]
        exact Or.inr (Or.inr (Or.inr (Or.inr ⟨hc, hne, hlegtrue, heq⟩)))

lemma teamInv_init (d sid : String) (pp : Option String) (mi : Option Nat) (ts : String) :
    teamInv (initTeamPipelineState d sid pp mi ts) := by
  unfold teamInv initTeamPipelineState
  simp

lemma teamInv_cancelState (s : TeamPipelineState) (p : Bool) (now : String) :
    teamInv (requestTeamCancel s p now) := by
  unfold teamInv requestTeamCancel
  simp

lemma teamInv_mark_mut (s : TeamPipelineState) (next : TeamPipelinePhase)
    (r : Option String) (now : String)
    (hmut : ¬(s.phase = next ∧ next ≠ .teamFix))
    (hact : ¬(next = .complete ∨ next = .failed ∨ next = .cancelled) →
      s.active = true ∧ s.completed_at = none) :
    teamInv (markTeamPhase s next r now).state := by
  rw [markTeamPhase_mut_eq s next r now hmut]
  by_cases hbound : postAttempt s next > s.fix_loop.max_attempts
  · rw [if_pos hbound]
    unfold teamInv
    simp
  · rw [if_neg hbound]
    by_cases hterm : next = .complete ∨ next = .failed ∨ next = .cancelled
    · rcases hterm with h | h | h <;> subst h <;> unfold teamInv <;> simp
    · obtain ⟨h1, h2⟩ := hact hterm
      unfold teamInv
      simp [hterm, h1, h2]

lemma teamInv_transition (s : TeamPipelineState) (next : TeamPipelinePhase)
    (r : Option String) (now : String) (hs : teamInv s) :
    teamInv (transitionTeamPhase s next r now).state := by
  rcases transitionTeamPhase_cases s next r now with
    h | ⟨hc, h⟩ | ⟨hc, hne, h⟩ | ⟨hc, h⟩ | ⟨hc, hne, hleg, h⟩
  · rw [h]; exact hs
  · rw [h]; exact hs
  · rw [h]
    apply teamInv_mark_mut
    · intro hcontra
      exact hne hcontra.1
    · intro _
      exact ⟨rfl, rfl⟩
  · rw [h]; exact hs
  · rw [h]
    apply teamInv_mark_mut
    · intro hcontra
      exact hne hcontra.1
    · intro _
      have hsrc : ¬(s.phase = .complete ∨ s.phase = .failed ∨ s.phase = .cancelled) := by
        intro hx
        rcases hx with h1 | h1 | h1
        · rw [h1, allowed_complete next] at hleg; simp at hleg
        · rw [h1, allowed_failed next] at hleg; simp at hleg
        · exact hc h1
      have hactive : s.active = true := by
        cases hA : s.active with
        | false => exact absurd (hs.1.mp hA) hsrc
        | true => rfl
      refine ⟨hactive, ?_⟩
      cases hC : s.completed_at with
      | none => rfl
      | some v =>
        have hfalse : s.active = false := hs.2.mp (by rw [hC]; simp)
        rw [hactive] at hfalse
        simp at hfalse

/-- C5: every state reachable from initialization by engine transitions and
cancel requests is inactive exactly when its phase is `complete`, `failed` or
`cancelled`, and carries a completion timestamp exactly when inactive. -/
theorem teamReachable_lifecycle_inv (s : TeamPipelineState) (h : TeamReachable s) :
    (s.active = false ↔ (s.phase = .complete ∨ s.phase = .failed ∨ s.phase = .cancelled)) ∧
    (s.completed_at ≠ none ↔ s.active = false) := by
  induction h with
  | init d sid pp mi ts => exact teamInv_init d sid pp mi ts
  | transition s next r now _ ih => exact teamInv_transition s next r now ih
  | cancel s p now _ _ => exact teamInv_cancelState s p now

/-- C5 witness: the invariant holds at the cancelled document reached by
initializing and then requesting a cancel. -/
theorem teamReachable_lifecycle_inv_w :
    (sCancelled.active = false ↔
      (sCancelled.phase = .complete ∨ sCancelled.phase = .failed ∨
        sCancelled.phase = .cancelled)) ∧
    (sCancelled.completed_at ≠ none ↔ sCancelled.active = false) :=
  teamReachable_lifecycle_inv sCancelled
    (TeamReachable.cancel sInitSample true "t1"
      (TeamReachable.init "dir" "sess" none none "t0"))

lemma markTeamPhase_hist (s : TeamPipelineState) (next : TeamPipelinePhase)
    (r : Option String) (now : String) :
    ∃ t, (markTeamPhase s next r now).state.phase_history = s.phase_history ++ t := by
  by_cases hmut : s.phase = next ∧ next ≠ .teamFix
  · rw [markTeamPhase_noop s r now hmut.1 hmut.2]
    exact ⟨[], by simp⟩
  · rw [markTeamPhase_mut_eq s next r now hmut]
    by_cases hbound : postAttempt s next > s.fix_loop.max_attempts
    · rw [if_pos hbound]
      exact ⟨_, rfl⟩
    · rw [if_neg hbound]
      exact ⟨_, rfl⟩

lemma markTeamPhase_ok_hist (s : TeamPipelineState) (next : TeamPipelinePhase)
    (r : Option String) (now : String)
    (hmut : ¬(s.phase = next ∧ next ≠ .teamFix))
    (hok : (markTeamPhase s next r now).ok = true) :
    (markTeamPhase s next r now).state.phase_history =
      s.phase_history ++ [{ phase := next, entered_at := now, reason := mkHistoryReason r }] := by
  rw [markTeamPhase_mut_eq s next r now hmut] at hok ⊢
  by_cases hbound : postAttempt s next > s.fix_loop.max_attempts
  · rw [if_pos hbound] at hok
    simp at hok
  · rw [if_neg hbound]

lemma markTeamPhase_fail_hist (s : TeamPipelineState) (next : TeamPipelinePhase)
    (r : Option String) (now : String)
    (hfail : (markTeamPhase s next r now).ok = false) :
    (markTeamPhase s next r now).reason = some "Fix loop exceeded max_attempts" ∧
    (markTeamPhase s next r now).state.phase_history =
      s.phase_history ++
        [{ phase := next, entered_at := now, reason := mkHistoryReason r },
         { phase := .failed, entered_at := now,
           reason := some "fix-loop-max-attempts-exceeded" }] := by
  by_cases hmut : s.phase = next ∧ next ≠ .teamFix
  · rw [markTeamPhase_noop s r now hmut.1 hmut.2] at hfail
    simp at hfail
  · rw [markTeamPhase_mut_eq s next r now hmut] at hfail ⊢
    by_cases hbound : postAttempt s next > s.fix_loop.max_attempts
    · rw [if_pos hbound]
      exact ⟨rfl, rfl⟩
    · rw [if_neg hbound] at hfail
      simp at hfail

lemma illegalReason_ne (p t : TeamPipelinePhase) :
    ("Illegal transition: " ++ phaseToString p ++ " -> " ++ phaseToString t) ≠
      "Fix loop exceeded max_attempts" := by
  cases p <;> cases t <;> decide

lemma guardReason_ne (p t : TeamPipelinePhase) :
    ("Guard failed for transition: " ++ phaseToString p ++ " -> " ++ phaseToString t) ≠
      "Fix loop exceeded max_attempts" := by
  cases p <;> cases t <;> decide

lemma transitionTeamPhase_hist (s : TeamPipelineState) (next : TeamPipelinePhase)
    (r : Option String) (now : String) :
    ∃ t, (transitionTeamPhase s next r now).state.phase_history = s.phase_history ++ t := by
  rcases transitionTeamPhase_cases s next r now with
    h | ⟨_, h⟩ | ⟨_, _, h⟩ | ⟨_, h⟩ | ⟨_, _, _, h⟩
  · rw [h]; exact ⟨[], by simp⟩
  · rw [h]; exact ⟨[], by simp⟩
  · rw [h]
    exact markTeamPhase_hist { s with active := true, completed_at := none } next
      (some (r.getD "resumed-from-cancelled")) now
  · rw [h]; exact ⟨[], by simp⟩
  · rw [h]; exact markTeamPhase_hist s next r now

lemma applyTeamOp_hist (s : TeamPipelineState) (op : TeamOp) :
    ∃ t, (applyTeamOp s op).phase_history = s.phase_history ++ t := by
  cases op with
  | transition next r now => exact transitionTeamPhase_hist s next r now
  | mark next r now => exact markTeamPhase_hist s next r now
  | cancel p now => exact ⟨_, rfl⟩

lemma runTeamOps_hist (ops : List TeamOp) :
    ∀ s, ∃ t, (runTeamOps s ops).phase_history = s.phase_history ++ t := by
  induction ops with
  | nil =>
    intro s
    exact ⟨[], by simp [runTeamOps]⟩
  | cons op rest ih =>
    intro s
    obtain ⟨t1, h1⟩ := applyTeamOp_hist s op
    obtain ⟨t2, h2⟩ := ih (applyTeamOp s op)
    refine ⟨t1 ++ t2, ?_⟩
    show (runTeamOps (applyTeamOp s op) rest).phase_history = _
    rw [h2, h1, List.append_assoc]

lemma transitionTeamPhase_ok_hist (s : TeamPipelineState) (next : TeamPipelinePhase)
    (r : Option String) (now : String)
    (hok : (transitionTeamPhase s next r now).ok = true) :
    ∃ e, (transitionTeamPhase s next r now).state.phase_history = s.phase_history ++ [e] ∧
      e.phase = next := by
  rcases transitionTeamPhase_cases s next r now with
    h | ⟨_, h⟩ | ⟨_, hne, h⟩ | ⟨_, h⟩ | ⟨_, hne, _, h⟩
  · rw [h] at hok; simp at hok
  · rw [h] at hok; simp at hok
  · rw [h] at hok ⊢
    have hmut : ¬(({ s with active := true, completed_at := none } :
        TeamPipelineState).phase = next ∧ next ≠ .teamFix) := by
      intro hcontra
      exact hne hcontra.1
    exact ⟨_, markTeamPhase_ok_hist _ next _ now hmut hok, rfl⟩
  · rw [h] at hok; simp at hok
  · rw [h] at hok ⊢
    have hmut : ¬(s.phase = next ∧ next ≠ .teamFix) := by
      intro hcontra
      exact hne hcontra.1
    exact ⟨_, markTeamPhase_ok_hist s next r now hmut hok, rfl⟩

lemma transitionTeamPhase_fail_cases (s : TeamPipelineState) (next : TeamPipelinePhase)
    (r : Option String) (now : String)
    (hfail : (transitionTeamPhase s next r now).ok = false) :
    ((transitionTeamPhase s next r now).reason = some "Fix loop exceeded max_attempts" ∧
      ∃ e1 e2, (transitionTeamPhase s next r now).state.phase_history =
          s.phase_history ++ [e1, e2] ∧ e1.phase = next ∧ e2.phase = .failed ∧
          e2.reason = some "fix-loop-max-attempts-exceeded") ∨
    ((transitionTeamPhase s next r now).reason ≠ some "Fix loop exceeded max_attempts" ∧
      (transitionTeamPhase s next r now).state = s) := by
  rcases transitionTeamPhase_cases s next r now with
    h | ⟨_, h⟩ | ⟨_, _, h⟩ | ⟨_, h⟩ | ⟨_, _, _, h⟩
  · right
    rw [h]
    exact ⟨by simp [illegalReason_ne s.phase next], rfl⟩
  · right
    rw [h]
    refine ⟨by simp, rfl⟩
  · rw [h] at hfail ⊢
    obtain ⟨hr, hh⟩ := markTeamPhase_fail_hist _ next _ now hfail
    left
    exact ⟨hr, _, _, hh, rfl, rfl, rfl⟩
  · right
    rw [h]
    exact ⟨by simp [guardReason_ne s.phase next], rfl⟩
  · rw [h] at hfail ⊢
    obtain ⟨hr, hh⟩ := markTeamPhase_fail_hist s next r now hfail
    left
    exact ⟨hr, _, _, hh, rfl, rfl, rfl⟩

/-- C6: `phase_history` is append-only under each of the three operations and
under any sequence of them — the prior history is always a prefix of the new
one and its length never decreases; an accepted engine transition appends
exactly one entry (that of the requested phase), a bound-violating one exactly two
(the requested entry then the synthesized failed entry), and every rejected
request (illegal transition, guard failure, resume-not-permitted) leaves the
state untouched. -/
theorem phase_history_append_only (s : TeamPipelineState) (next : TeamPipelinePhase)
    (r : Option String) (now : String) (p : Bool) (ops : List TeamOp) :
    (∃ t, (markTeamPhase s next r now).state.phase_history = s.phase_history ++ t) ∧
    (∃ t, (transitionTeamPhase s next r now).state.phase_history = s.phase_history ++ t) ∧
    ((requestTeamCancel s p now).phase_history = s.phase_history ++
      [{ phase := .cancelled, entered_at := now, reason := some "cancel-requested" }]) ∧
    (∃ t, (runTeamOps s ops).phase_history = s.phase_history ++ t) ∧
    (s.phase_history.length ≤ (runTeamOps s ops).phase_history.length) ∧
    ((transitionTeamPhase s next r now).ok = true →
      ∃ e, (transitionTeamPhase s next r now).state.phase_history = s.phase_history ++ [e] ∧
        e.phase = next) ∧
    ((transitionTeamPhase s next r now).ok = false →
      (transitionTeamPhase s next r now).reason = some "Fix loop exceeded max_attempts" →
      ∃ e1 e2, (transitionTeamPhase s next r now).state.phase_history =
          s.phase_history ++ [e1, e2] ∧ e1.phase = next ∧ e2.phase = .failed ∧
          e2.reason = some "fix-loop-max-attempts-exceeded") ∧
    ((transitionTeamPhase s next r now).ok = false →
      (transitionTeamPhase s next r now).reason ≠ some "Fix loop exceeded max_attempts" →
      (transitionTeamPhase s next r now).state = s) := by
  obtain ⟨tr, hr⟩ := runTeamOps_hist ops s
  refine ⟨markTeamPhase_hist s next r now, transitionTeamPhase_hist s next r now, rfl,
    ⟨tr, hr⟩, ?_, transitionTeamPhase_ok_hist s next r now, ?_, ?_⟩
  · rw [hr]
    simp
  · intro hfail hreason
    rcases transitionTeamPhase_fail_cases s next r now hfail with ⟨_, hh⟩ | ⟨hne, _⟩
    · exact hh
    · exact absurd hreason hne
  · intro hfail hreason
    rcases transitionTeamPhase_fail_cases s next r now hfail with ⟨hfix, _⟩ | ⟨_, hstate⟩
    · exact absurd hfix hreason
    · exact hstate

/-- C6 witness: a rejected skip appends nothing, the legal `team-plan ->
team-prd` step appends exactly one entry, and the bound-violating fourth
`team-fix` retry appends exactly two entries while a cancel always appends its
single `cancelled` entry. -/
theorem phase_history_append_only_w :
    ((transitionTeamPhase sInitSample .teamExec none "t1").state = sInitSample) ∧
    (∃ e, (transitionTeamPhase sInitSample .teamPrd none "t1").state.phase_history =
      sInitSample.phase_history ++ [e] ∧ e.phase = .teamPrd) ∧
    (∃ e1 e2, (transitionTeamPhase sVerify3 .teamFix none "t4").state.phase_history =
      sVerify3.phase_history ++ [e1, e2] ∧ e1.phase = .teamFix ∧ e2.phase = .failed ∧
      e2.reason = some "fix-loop-max-attempts-exceeded") ∧
    ((requestTeamCancel sInitSample true "t1").phase_history = sInitSample.phase_history ++
      [{ phase := .cancelled, entered_at := "t1", reason := some "cancel-requested" }]) := by
  have h1 := phase_history_append_only sInitSample .teamExec none "t1" true []
  have h2 := phase_history_append_only sInitSample .teamPrd none "t1" true []
  have h3 := phase_history_append_only sVerify3 .teamFix none "t4" true []
  refine ⟨h1.2.2.2.2.2.2.2 (by decide) (by decide), h2.2.2.2.2.2.1 (by decide),
    h3.2.2.2.2.2.2.1 (by decide) (by decide), h1.2.2.1⟩
